import Mathlib

/-!
Shallow embedding of `leader.go` from moonrhythm/leader: a lease-based
single-leader election core. Time values (`time.Time`, `time.Duration`) are
modelled as `Int` nanosecond counts; Go errors are modelled as `Bool`
success flags (`true` = `err == nil`) or `Option` results. The embedding
records the sequence of backend operations an acquisition attempt invokes,
so that claims about which calls happen on which path can be stated.
-/

namespace Leader

/-- Backend operations of the `Operation` interface (leader.go lines 19-26),
as observable events of one acquisition attempt. -/
inductive BOp
  | beginO
  | currentO
  | tryAcquireO
  | commitO
  | rollbackO
deriving DecidableEq

/-- One backend's behaviour during a single acquisition attempt: the outcome
each operation would return if invoked. `currentRes = none` models `Current`
returning a non-nil error; `some (holder, lastBeat, now)` models a successful
read of the claim row together with the backend clock. -/
structure Backend where
  beginOk : Bool
  currentRes : Option (String × Int × Int)
  tryAcquireOk : Bool
  commitOk : Bool
  rollbackOk : Bool
deriving DecidableEq

/-- Outcome of one acquisition attempt: the final `lead` flag, the backend
calls made, in order, and the value passed to `OnLeadChanged` if the deferred
notifier fired (`none` = not fired). -/
structure AttemptResult where
  lead : Bool
  calls : List BOp
  changed : Option Bool
deriving DecidableEq

/-- The deferred notifier of leader.go lines 71-75: fires `OnLeadChanged`
with the final `lead` exactly when it differs from the snapshot `isLead`
taken at the start of the attempt. -/
def mkResult (isLead ld : Bool) (calls : List BOp) : AttemptResult :=
  { lead := ld, calls := calls, changed := if isLead = ld then none else some ld }

/-- The `acquire` closure of leader.go lines 83-94: call `TryAcquire`; on
error stop; else call `Commit`; on error stop; else `lead = true`. Returns
the resulting `lead` value and the backend calls it made. -/
def acquireStep (b : Backend) : Bool × List BOp :=
  if b.tryAcquireOk = false then (false, [BOp.tryAcquireO])
  else if b.commitOk = false then (false, [BOp.tryAcquireO, BOp.commitO])
  else (true, [BOp.tryAcquireO, BOp.commitO])

/-- The body of `tryAcquire` (leader.go lines 64-118). `lead0` is the process
local `lead` flag on entry; `pid` is the package `processID`; `timeout` is the
configured `Timeout`. The deferred `Op.Rollback()` registered after a
successful `Begin` runs on every exit path, so `rollbackO` is appended to the
call list of each such path; its return value is discarded by the source.
`now.After(lastBeat.Add(Timeout))` is the strict comparison
`lastBeat + timeout < now`. -/
def tryAcquire (pid : String) (timeout : Int) (lead0 : Bool) (b : Backend) :
    AttemptResult :=
  if b.beginOk = false then
    mkResult lead0 false [BOp.beginO]
  else
    match b.currentRes with
    | none => mkResult lead0 false [BOp.beginO, BOp.currentO, BOp.rollbackO]
    | some (current, lastBeat, now) =>
      if current = "" then
        mkResult lead0 (acquireStep b).1
          ([BOp.beginO, BOp.currentO] ++ (acquireStep b).2 ++ [BOp.rollbackO])
      else if current = pid then
        mkResult lead0 (acquireStep b).1
          ([BOp.beginO, BOp.currentO] ++ (acquireStep b).2 ++ [BOp.rollbackO])
      else if lastBeat + timeout < now then
        mkResult lead0 (acquireStep b).1
          ([BOp.beginO, BOp.currentO] ++ (acquireStep b).2 ++ [BOp.rollbackO])
      else
        mkResult lead0 false [BOp.beginO, BOp.currentO, BOp.rollbackO]

/-- The decision cases of leader.go lines 101-117, in evaluation order:
empty holder, own claim, stale foreign claim, or keep (no action). -/
inductive DecisionCase
  | vacant
  | own
  | stale
  | keep
deriving DecidableEq

/-- Which branch of the decision chain of `tryAcquire` (leader.go lines
101-117) fires for a successfully read claim. -/
def decisionCase (pid current : String) (lastBeat now timeout : Int) :
    DecisionCase :=
  if current = "" then DecisionCase.vacant
  else if current = pid then DecisionCase.own
  else if lastBeat + timeout < now then DecisionCase.stale
  else DecisionCase.keep

/-- Model of `Lead` (leader.go lines 40-45): read the cached flag under the read lock. -/
def Lead (st : Bool) : Bool := st

/-- Model of `Run` (leader.go lines 48-54): run `f` when `Lead()` is true and return
what `Lead()` read. The side effect of `f` is modelled as a state
transformer on an arbitrary state type. -/
def Run {α : Type} (st : Bool) (f : α → α) (x : α) : α × Bool :=
  let l := Lead st
  (if l then f x else x, l)

/-- Hex digit rendering of a value below 16, lowercase, as used by the uuid
string encoding of the identity provider. -/
def hexChar (n : Nat) : Char :=
  if n < 10 then Char.ofNat (48 + n) else Char.ofNat (87 + n)

/-- Two lowercase hex digits of one byte. -/
def byteHex (b : Nat) : List Char :=
  [hexChar (b / 16 % 16), hexChar (b % 16)]

/-- Canonical textual form of a 16-byte uuid, `8-4-4-4-12` lowercase hex
groups. This models the identity provider leader.go delegates to
(`uuid.Must(uuid.NewV4()).String()`, an external dependency): a 128-bit
random value rendered as text, per the dependency's documented format. -/
def uuidChars (b : Fin 16 → Nat) : List Char :=
  byteHex (b 0) ++ byteHex (b 1) ++ byteHex (b 2) ++ byteHex (b 3) ++
    [Char.ofNat 45] ++ byteHex (b 4) ++ byteHex (b 5) ++
    [Char.ofNat 45] ++ byteHex (b 6) ++ byteHex (b 7) ++
    [Char.ofNat 45] ++ byteHex (b 8) ++ byteHex (b 9) ++
    [Char.ofNat 45] ++ byteHex (b 10) ++ byteHex (b 11) ++ byteHex (b 12) ++
    byteHex (b 13) ++ byteHex (b 14) ++ byteHex (b 15)

/-- The uuid text as a `String`. -/
def uuidString (b : Fin 16 → Nat) : String :=
  String.mk (uuidChars b)

/-- Model of `ProcessID` (leader.go lines 35-37): the package-level `processID`,
generated once at process start from 16 random bytes and never assigned
again anywhere in the package; modelled as a pure function of those bytes. -/
def ProcessID (b : Fin 16 → Nat) : String :=
  uuidString b

/-- Model of `noop.Begin` (leader.go lines 122-124): always returns nil. -/
def noopBeginOk : Bool := true

/-- Model of `noop.Rollback` (leader.go lines 126-128): always returns nil. -/
def noopRollbackOk : Bool := true

/-- Model of `noop.Commit` (leader.go lines 130-132): always returns nil. -/
def noopCommitOk : Bool := true

/-- Model of `noop.TryAcquire` (leader.go lines 138-140): always returns nil. -/
def noopTryAcquireOk : Bool := true

/-- Model of `noop.Current` (leader.go lines 134-136). In the source the named return
value `processID` shadows the package-level `processID` variable and is never
assigned, so `return processID, time.Now(), time.Now(), nil` returns the
zero value of `string`: the empty string. The two `time.Now()` calls are the
arguments `now1`, `now2`. -/
def noopCurrent (now1 now2 : Int) : String × Int × Int :=
  ("", now1, now2)

/-- The noop backend's behaviour during one attempt, assembled from its five
methods. -/
def noopBackend (now1 now2 : Int) : Backend :=
  { beginOk := noopBeginOk,
    currentRes := some (noopCurrent now1 now2),
    tryAcquireOk := noopTryAcquireOk,
    commitOk := noopCommitOk,
    rollbackOk := noopRollbackOk }

/-- Boolean form of the decision chain of leader.go lines 101-117: attempt a
write exactly when the claim is vacant, own, or stale. -/
def shouldAcquire (pid current : String) (lastBeat now timeout : Int) : Bool :=
  if current = "" then true
  else if current = pid then true
  else if lastBeat + timeout < now then true
  else false

/-- Per-process local state in the multi-process model: the cached `lead`
flag, the claim version snapshot taken by `Current` inside an open
transaction when the decision chain chose to write (`none` when no write
will be attempted), and the claim epoch this process committed when it last
became leader. -/
structure ProcState where
  lead : Bool
  snap : Option Nat
  epoch : Option Nat
deriving DecidableEq

/-- Pointwise update of the process table. -/
def updProcs (ps : String → ProcState) (p : String) (st : ProcState) :
    String → ProcState :=
  fun q => if q = p then st else ps q

/-- Global state of a fleet of processes running `tryAcquire` against one
shared backend. The claim row carries a version counter: each committed
write creates a fresh claim epoch, which is how the backend's atomic
conditional write is modelled — `TryAcquire` + `Commit` succeed only if the
version is still the one the transaction read. `log` records every
successful commit as (epoch, committer), newest first. -/
structure Sys where
  version : Nat
  holder : String
  lastBeat : Int
  procs : String → ProcState
  log : List (Nat × String)

/-- Initial global state: no claim, no leader, nothing committed. -/
def Sys.start : Sys :=
  { version := 0, holder := "", lastBeat := 0,
    procs := fun _ => { lead := false, snap := none, epoch := none },
    log := [] }

/-- One interleaved step of some process's acquisition attempt against a
backend that enforces atomic conditional writes.

`read p now`: the attempt's prefix up to the decision chain — `lead` is
tentatively cleared (leader.go line 69), `Current` returns the present claim
and backend clock `now`, and the decision chain of leader.go lines 101-117
either records the version snapshot for a write attempt or ends the attempt.

`commitOk p now`: `TryAcquire(p)` and `Commit` both succeed; the backend
admits the write only when the claim version is unchanged since this
process's read. The claim becomes (p, now) with a fresh version, `lead`
becomes true, and the commit is logged.

`abort p`: any other completion of an attempt — a backend error on any
operation, a conflicting concurrent writer detected by `TryAcquire`, or the
keep branch of the decision chain; the process ends the attempt non-leader
(leader.go: the tentative `lead = false` of line 69 stands). -/
inductive Step (timeout : Int) : Sys → Sys → Prop
  | read (s : Sys) (p : String) (now : Int) :
      Step timeout s
        { s with
          procs :=
            updProcs s.procs p
              ({ lead := false,
                 snap := if shouldAcquire p s.holder s.lastBeat now timeout then
                           some s.version
                         else none,
                 epoch := none }) }
  | commitOk (s : Sys) (p : String) (now : Int) :
      (s.procs p).snap = some s.version →
      Step timeout s
        { version := s.version + 1, holder := p, lastBeat := now,
          procs :=
            updProcs s.procs p
              ({ lead := true, snap := none, epoch := some (s.version + 1) }),
          log := (s.version + 1, p) :: s.log }
  | abort (s : Sys) (p : String) :
      Step timeout s
        { s with
          procs :=
            updProcs s.procs p
              ({ lead := false, snap := none, epoch := none }) }

/-- States reachable from the initial state by interleaved steps of any
processes. -/
inductive Reaches (timeout : Int) : Sys → Prop
  | start : Reaches timeout Sys.start
  | step {s s' : Sys} : Reaches timeout s → Step timeout s s' → Reaches timeout s'

/-- Inductive invariant of the multi-process model: commit epochs in the log
strictly decrease (newest first) and never exceed the current version, and a
process whose cached flag is true committed the epoch it holds. -/
def SysInv (s : Sys) : Prop :=
  s.log.Pairwise (fun a b => b.1 < a.1) ∧
  (∀ e ∈ s.log, e.1 ≤ s.version) ∧
  (∀ p, (s.procs p).lead = true →
    ∃ v, (s.procs p).epoch = some v ∧ (v, p) ∈ s.log)

/-- Sample backend: fresh foreign claim (holder "p2", heartbeat age 10 with
timeout 25), every operation healthy. -/
def bKeep : Backend :=
  { beginOk := true, currentRes := some ("p2", 0, 10), tryAcquireOk := true,
    commitOk := true, rollbackOk := true }

/-- Sample backend: vacant claim, every operation healthy. -/
def bVacant : Backend :=
  { beginOk := true, currentRes := some ("", 0, 0), tryAcquireOk := true,
    commitOk := true, rollbackOk := true }

/-- Sample backend: `Begin` fails. -/
def bBeginErr : Backend :=
  { beginOk := false, currentRes := none, tryAcquireOk := true,
    commitOk := true, rollbackOk := true }

/-- Sample backend: vacant claim, write and commit succeed, but `Rollback`
returns an error. -/
def bRollbackErr : Backend :=
  { beginOk := true, currentRes := some ("", 0, 0), tryAcquireOk := true,
    commitOk := true, rollbackOk := false }

/-- Helper: applying the pointwise update. -/
theorem updProcs_apply (ps : String → ProcState) (p : String) (st : ProcState)
    (q : String) : updProcs ps p st q = if q = p then st else ps q := rfl

/-- Helper: in a list of (epoch, process) pairs whose epochs strictly
decrease, an epoch determines the process. -/
theorem pairwise_fst_unique {l : List (Nat × String)}
    (h : l.Pairwise (fun a b => b.1 < a.1)) :
    ∀ v p q, (v, p) ∈ l → (v, q) ∈ l → p = q := by
  induction l with
  | nil =>
    intro v p q hp _
    simp at hp
  | cons hd tl ih =>
    intro v p q hp hq
    rcases List.pairwise_cons.mp h with ⟨hhd, htl⟩
    rcases List.mem_cons.mp hp with hp1 | hp2 <;>
      rcases List.mem_cons.mp hq with hq1 | hq2
    · have hpq := hp1.trans hq1.symm
      simpa using hpq
    · have hlt := hhd _ hq2
      rw [← hp1] at hlt
      simp at hlt
    · have hlt := hhd _ hp2
      rw [← hq1] at hlt
      simp at hlt
    · exact ih htl v p q hp2 hq2

/-- Helper: every step of the multi-process model preserves `SysInv`. -/
theorem step_inv {timeout : Int} {s s' : Sys} (h : Step timeout s s')
    (hi : SysInv s) : SysInv s' := by
  obtain ⟨h1, h2, h3⟩ := hi
  cases h with
  | read p now =>
    refine ⟨h1, h2, ?_⟩
    intro q hq
    by_cases hqp : q = p
    · simp [updProcs, hqp] at hq
    · simp only [updProcs, if_neg hqp] at hq ⊢
      exact h3 q hq
  | commitOk p now hsnap =>
    refine ⟨?_, ?_, ?_⟩
    · refine List.pairwise_cons.mpr ⟨?_, h1⟩
      intro e he
      have h4 := h2 e he
      show e.1 < s.version + 1
      omega
    · intro e he
      rcases List.mem_cons.mp he with rfl | he2
      · simp
      · have h4 := h2 e he2
        show e.1 ≤ s.version + 1
        omega
    · intro q hq
      by_cases hqp : q = p

      · subst hqp
        refine ⟨s.version + 1, ?_, ?_⟩
        · simp [updProcs]
        · simp
      · simp only [updProcs, if_neg hqp] at hq ⊢
        obtain ⟨v, hv1, hv2⟩ := h3 q hq
        exact ⟨v, hv1, List.mem_cons_of_mem _ hv2⟩
  | abort p =>
    refine ⟨h1, h2, ?_⟩
    intro q hq
    by_cases hqp : q = p
    · simp [updProcs, hqp] at hq
    · simp only [updProcs, if_neg hqp] at hq ⊢
      exact h3 q hq

/-- Helper: `SysInv` holds in every reachable state. -/
theorem reaches_inv {timeout : Int} {s : Sys} (h : Reaches timeout s) :
    SysInv s := by
  induction h with
  | start =>
    refine ⟨?_, ?_, ?_⟩ <;> simp [Sys.start]
  | step hr hs ih =>
    exact step_inv hs ih

/-- Claim C1: when `Begin` and `Current` both succeed, `TryAcquire` is called
if and only if one of the three mutually exclusive cases holds, in order:
the holder is empty; or the holder is this process; or the holder is a
different process and `now` is strictly after `lastBeat + timeout`. In the
remaining case `TryAcquire` is not called and the attempt ends non-leader. -/
theorem tryAcquire_write_iff_cases (pid : String) (timeout : Int)
    (lead0 : Bool) (b : Backend) (c : String) (lb n : Int)
    (hb : b.beginOk = true) (hc : b.currentRes = some (c, lb, n)) :
    (BOp.tryAcquireO ∈ (tryAcquire pid timeout lead0 b).calls ↔
      (c = "" ∨ (c ≠ "" ∧ c = pid) ∨ (c ≠ "" ∧ c ≠ pid ∧ lb + timeout < n))) ∧
    (¬(c = "" ∨ (c ≠ "" ∧ c = pid) ∨ (c ≠ "" ∧ c ≠ pid ∧ lb + timeout < n)) →
      BOp.tryAcquireO ∉ (tryAcquire pid timeout lead0 b).calls ∧
      (tryAcquire pid timeout lead0 b).lead = false) := by
  simp only [tryAcquire, hb, hc, Bool.true_eq_false, if_false, mkResult,
    acquireStep]
  split_ifs with h1 h2 h3 h4 h5 <;> simp_all

/-- Witness for C1: a fresh foreign claim (age 10, timeout 25) is the
remaining case, so the attempt ends non-leader. -/
theorem tryAcquire_write_iff_cases_witness :
    (tryAcquire "p1" 25 false bKeep).lead = false :=
  (tryAcquire_write_iff_cases "p1" 25 false bKeep "p2" 0 10 rfl rfl).2
    (by decide) |>.2

/-- Claim C2: against a backend enforcing atomic conditional writes, for any
interleaving of acquisition attempts, each committed claim epoch has at most
one committer, and no two distinct processes hold `lead = true` for the same
claim epoch. -/
theorem commit_epochs_unique (timeout : Int) (s : Sys)
    (h : Reaches timeout s) :
    (∀ v p q, (v, p) ∈ s.log → (v, q) ∈ s.log → p = q) ∧
    (∀ p q, (s.procs p).lead = true → (s.procs q).lead = true →
      (s.procs p).epoch = (s.procs q).epoch → p = q) := by
  obtain ⟨h1, h2, h3⟩ := reaches_inv h
  constructor
  · exact pairwise_fst_unique h1
  · intro p q hp hq he
    obtain ⟨vp, hep, hmp⟩ := h3 p hp
    obtain ⟨vq, heq, hmq⟩ := h3 q hq
    rw [hep, heq] at he
    injection he with he2
    subst he2
    exact pairwise_fst_unique h1 vp p q hmp hmq

/-- Witness for C2: process "A" reads the vacant claim and commits epoch 1
from the initial state; the theorem applies to the resulting reachable
state. -/
theorem commit_epochs_unique_witness : ("A" : String) = "A" :=
  (commit_epochs_unique 25 _
    (Reaches.step (Reaches.step Reaches.start (Step.read Sys.start "A" 0))
      (Step.commitOk _ "A" 5 (by decide)))).1 1 "A" "A" (by decide) (by decide)

/-- Claim C3 (code bug): the noop backend's `Begin`, `Commit`, `Rollback` and
`TryAcquire` all succeed, but `Current` returns the empty string as holder —
the named return value `processID` shadows the package-level variable — so
under the noop backend the claim is classified vacant, not as held by this
process. -/
theorem noop_current_reports_empty_holder :
    noopBeginOk = true ∧ noopCommitOk = true ∧ noopRollbackOk = true ∧
    noopTryAcquireOk = true ∧
    (noopCurrent 0 0).1 = "" ∧
    decisionCase "p1" (noopCurrent 0 0).1 0 0 25 = DecisionCase.vacant := by
  decide

/-- Claim C4: in an attempt that reaches the write step (`Begin` and
`Current` succeeded and the decision chain chose to write), the final `lead`
is true exactly when both `TryAcquire` and `Commit` succeed. -/
theorem lead_iff_tryAcquire_and_commit (pid : String) (timeout : Int)
    (lead0 : Bool) (b : Backend) (c : String) (lb n : Int)
    (hb : b.beginOk = true) (hc : b.currentRes = some (c, lb, n))
    (hd : c = "" ∨ c = pid ∨ lb + timeout < n) :
    ((tryAcquire pid timeout lead0 b).lead = true ↔
      b.tryAcquireOk = true ∧ b.commitOk = true) := by
  simp only [tryAcquire, hb, hc, Bool.true_eq_false, if_false, mkResult,
    acquireStep]
  split_ifs with h1 h2 h3 h4 h5 <;> simp_all

/-- Witness for C4: vacant claim with healthy write and commit yields
leadership. -/
theorem lead_iff_tryAcquire_and_commit_witness :
    (tryAcquire "p1" 25 false bVacant).lead = true :=
  (lead_iff_tryAcquire_and_commit "p1" 25 false bVacant "" 0 0 rfl rfl
    (Or.inl rfl)).mpr ⟨rfl, rfl⟩

/-- Counterexample to C5 as stated: on the success path every operation but
`Rollback` succeeds, `Rollback` is invoked and returns an error, and yet the
attempt completes with `lead = true` — a `Rollback` error is not handled
like the other four. -/
theorem rollback_error_after_commit_keeps_lead :
    bRollbackErr.rollbackOk = false ∧
    BOp.rollbackO ∈ (tryAcquire "p1" 25 false bRollbackErr).calls ∧
    (tryAcquire "p1" 25 false bRollbackErr).lead = true := by
  decide

/-- Claim C5 as amended: if `Begin` or `Current` fails, or an invoked
`TryAcquire` or `Commit` fails, the attempt is abandoned with `lead = false`;
the error returned by `Rollback` is discarded and does not affect the
outcome. -/
theorem abort_on_begin_current_write_commit_error (pid : String)
    (timeout : Int) (lead0 : Bool) (b : Backend)
    (h : b.beginOk = false ∨ b.currentRes = none ∨
      (BOp.tryAcquireO ∈ (tryAcquire pid timeout lead0 b).calls ∧
        b.tryAcquireOk = false) ∨
      (BOp.commitO ∈ (tryAcquire pid timeout lead0 b).calls ∧
        b.commitOk = false)) :
    (tryAcquire pid timeout lead0 b).lead = false := by
  obtain ⟨bg, cur, ta, cm, rb⟩ := b
  rcases cur with _ | ⟨c, lb, n⟩ <;>
    simp only [tryAcquire, mkResult, acquireStep] at h ⊢ <;>
    split_ifs at h ⊢ <;> simp_all

/-- Witness for C5 (amended): a failing `Begin` leaves the attempt
non-leader. -/
theorem abort_on_begin_current_write_commit_error_witness :
    (tryAcquire "p1" 25 true bBeginErr).lead = false :=
  abort_on_begin_current_write_commit_error "p1" 25 true bBeginErr
    (Or.inl rfl)

/-- Claim C6: the deferred notifier fires exactly once, with the final
`lead`, when the flag at the end of the attempt differs from its value at
the start, and not at all otherwise. -/
theorem changed_iff_flag_flipped (pid : String) (timeout : Int)
    (lead0 : Bool) (b : Backend) :
    (tryAcquire pid timeout lead0 b).changed =
      (if lead0 = (tryAcquire pid timeout lead0 b).lead then none
       else some (tryAcquire pid timeout lead0 b).lead) := by
  obtain ⟨bg, cur, ta, cm, rb⟩ := b
  rcases cur with _ | ⟨c, lb, n⟩ <;>
    simp only [tryAcquire, mkResult, acquireStep] <;>
    split_ifs <;> rfl

/-- Claim C7: the transaction is rolled back exactly once whenever `Begin`
succeeded, on every exit path, and `Rollback` is never invoked when `Begin`
failed. -/
theorem rollback_exactly_once_iff_begin_ok (pid : String) (timeout : Int)
    (lead0 : Bool) (b : Backend) :
    (tryAcquire pid timeout lead0 b).calls.count BOp.rollbackO =
      (if b.beginOk then 1 else 0) := by
  obtain ⟨bg, cur, ta, cm, rb⟩ := b
  rcases cur with _ | ⟨c, lb, n⟩ <;>
    cases bg <;>
    simp only [tryAcquire, mkResult, acquireStep] <;>
    split_ifs <;>
    first
      | decide
      | exact ‹False›.elim

/-- Claim C8: `Run f` executes `f` exactly when the cached flag read by
`Lead` is true, and returns that flag. -/
theorem Run_executes_iff_lead_and_returns_flag {α : Type} (st : Bool)
    (f : α → α) (x : α) :
    (Run st f x).2 = st ∧ (Run st f x).1 = (if st then f x else x) :=
  ⟨rfl, rfl⟩

/-- Claim C9: the process identity is a 36-character uuid rendering — in
particular non-empty — and a claim whose holder equals this process's own
identity is classified as the process's own claim, never as vacant. -/
theorem ProcessID_uuid_length_and_own_classification (b : Fin 16 → Nat)
    (lb n t : Int) :
    (ProcessID b).length = 36 ∧
    decisionCase (ProcessID b) (ProcessID b) lb n t = DecisionCase.own := by
  have hlen : (ProcessID b).length = 36 := by
    simp [ProcessID, uuidString, uuidChars, byteHex, String.length]
  refine ⟨hlen, ?_⟩
  have hne : ProcessID b ≠ "" := by
    intro h
    have h36 := congrArg String.length h
    rw [hlen] at h36
    exact absurd h36 (by decide)
  simp [decisionCase, hne]

/-- Claim C10: on the success path (write and commit both succeed) the
attempt still invokes `Rollback` exactly once, its return value is ignored —
the result is the same whatever `Rollback` would return — and the attempt
completes with `lead = true`. -/
theorem success_path_rollback_once_and_discarded (pid : String)
    (timeout : Int) (lead0 : Bool) (b : Backend) (c : String) (lb n : Int)
    (hb : b.beginOk = true) (hc : b.currentRes = some (c, lb, n))
    (hd : c = "" ∨ c = pid ∨ lb + timeout < n)
    (hta : b.tryAcquireOk = true) (hcm : b.commitOk = true) :
    (tryAcquire pid timeout lead0 b).calls.count BOp.rollbackO = 1 ∧
    (tryAcquire pid timeout lead0 b).lead = true ∧
    (∀ rb : Bool,
      tryAcquire pid timeout lead0 { b with rollbackOk := rb } =
        tryAcquire pid timeout lead0 b) := by
  refine ⟨?_, ?_, ?_⟩
  · simp only [tryAcquire, hb, hc, Bool.true_eq_false, if_false, mkResult,
      acquireStep, hta, hcm]
    split_ifs <;> decide
  · simp only [tryAcquire, hb, hc, Bool.true_eq_false, if_false, mkResult,
      acquireStep, hta, hcm]
    split_ifs <;> simp_all
  · intro rb
    rfl

/-- Witness for C10: vacant claim, healthy write and commit, failing
`Rollback`: the attempt still ends with leadership. -/
theorem success_path_rollback_once_and_discarded_witness :
    (tryAcquire "p1" 25 false bRollbackErr).lead = true :=
  (success_path_rollback_once_and_discarded "p1" 25 false bRollbackErr
    "" 0 0 rfl rfl (Or.inl rfl) rfl rfl).2.1

end Leader
